import Mathlib

/-!
Verification development for the `amp-ai-sdk-provider` repository.

The repository contains two adapters implementing the AI SDK's
`LanguageModelV3` contract:

* `src/amp-chat-language-model.ts` — an HTTP chat-completion adapter
  (`AmpChatLanguageModel`): request building (`convertToAmpMessages`,
  `convertToAmpTools`), response mapping (`convertFromAmpContent`,
  `mapFinishReason`, `doGenerate`) and a streaming transform (`doStream`)
  that parses raw SSE chunks as JSON and emits normalized stream parts.
* `src/amp-agent-language-model.ts` — a local agent-execution adapter
  (`AmpAgentLanguageModel`): prompt flattening (`buildPrompt`) and a
  generate operation that consumes agent events.

This file is a shallow embedding of those functions.  JavaScript
`JSON.parse` / dynamic-value semantics are modelled by an executable
`JsonVal` type together with a strict JSON parser, JS truthiness
(`jsTruthy`), property access (`getField`, returning `none` for the JS
`undefined`) and the type-error behaviour of the streaming transform
(`null` property access, `for..of` over a non-iterable) which the
surrounding `try`/`catch` converts into an `error` stream part.
-/

/-- JSON values as produced by `JSON.parse`.  Numbers are kept exactly as
`mantissa * 10 ^ exp10` (decimal), which faithfully represents every JSON
numeral the adapter is ever handed (token counts are plain integers). -/
inductive JsonVal where
  | null
  | bool (b : Bool)
  | num (mantissa : Int) (exp10 : Int)
  | str (s : String)
  | arr (elems : List JsonVal)
  | obj (fields : List (String × JsonVal))
deriving Repr

def isWsChar (c : Char) : Bool :=
  c = ' ' || c = '\n' || c = '\t' || c = '\r'

def skipWs (cs : List Char) : List Char :=
  cs.dropWhile isWsChar

def isDigitChar (c : Char) : Bool :=
  '0' ≤ c && c ≤ '9'

def digitNat (c : Char) : Nat :=
  c.toNat - '0'.toNat

def digitsToNat (ds : List Char) : Nat :=
  ds.foldl (fun a c => a * 10 + digitNat c) 0

def hexVal (c : Char) : Option Nat :=
  let n := c.toNat
  if 48 ≤ n ∧ n ≤ 57 then some (n - 48)
  else if 97 ≤ n ∧ n ≤ 102 then some (n - 87)
  else if 65 ≤ n ∧ n ≤ 70 then some (n - 55)
  else none

/-- Single-character escapes accepted inside JSON strings. -/
def escChar (c : Char) : Option Char :=
  if c = '"' then some '"'
  else if c = '\\' then some '\\'
  else if c = '/' then some '/'
  else if c = 'b' then some '\x08'
  else if c = 'f' then some '\x0c'
  else if c = 'n' then some '\n'
  else if c = 'r' then some '\r'
  else if c = 't' then some '\t'
  else none

/-- Parse the body of a JSON string (after the opening quote), returning
the decoded characters and the remainder after the closing quote. -/
def parseStrChars : Nat → List Char → Option (List Char × List Char)
  | 0, _ => none
  | _ + 1, [] => none
  | fuel + 1, c :: r =>
    if c = '"' then some ([], r)
    else if c = '\\' then
      match r with
      | [] => none
      | e :: r2 =>
        if e = 'u' then
          match r2 with
          | h1 :: h2 :: h3 :: h4 :: r3 =>
            match hexVal h1, hexVal h2, hexVal h3, hexVal h4 with
            | some a, some b, some c2, some d =>
              (fun p => (Char.ofNat (((a * 16 + b) * 16 + c2) * 16 + d) :: p.1, p.2)) <$>
                parseStrChars fuel r3
            | _, _, _, _ => none
          | _ => none
        else
          match escChar e with
          | some ec => (fun p => (ec :: p.1, p.2)) <$> parseStrChars fuel r2
          | none => none
    else if c.toNat < 32 then none
    else (fun p => (c :: p.1, p.2)) <$> parseStrChars fuel r

/-- Parse a JSON number starting at the head of `cs` (strict JSON grammar:
no leading zeros, fraction and exponent digits mandatory when introduced). -/
def parseNumber (cs : List Char) : Option (JsonVal × List Char) :=
  let signSplit : Bool × List Char :=
    match cs with
    | '-' :: r => (true, r)
    | _ => (false, cs)
  let neg := signSplit.1
  let cs1 := signSplit.2
  match List.span isDigitChar cs1 with
  | ([], _) => none
  | (ids, cs2) =>
    if 2 ≤ ids.length ∧ ids.head? = some '0' then none
    else
      let fracRes : Option (List Char × List Char) :=
        match cs2 with
        | '.' :: r =>
          match List.span isDigitChar r with
          | ([], _) => none
          | (ds, r2) => some (ds, r2)
        | _ => some ([], cs2)
      match fracRes with
      | none => none
      | some (fds, cs3) =>
        let expRes : Option (Int × List Char) :=
          match cs3 with
          | 'e' :: r | 'E' :: r =>
            let signSplit2 : Int × List Char :=
              match r with
              | '+' :: rr => (1, rr)
              | '-' :: rr => (-1, rr)
              | _ => (1, r)
            match List.span isDigitChar signSplit2.2 with
            | ([], _) => none
            | (eds, r2) => some (signSplit2.1 * (digitsToNat eds : Int), r2)
          | _ => some (0, cs3)
        match expRes with
        | none => none
        | some (ex, cs4) =>
          let mant : Nat := digitsToNat (ids ++ fds)
          let m : Int := if neg then -(mant : Int) else (mant : Int)
          some (.num m (ex - (fds.length : Int)), cs4)

mutual

/-- Parse one JSON value (leading whitespace allowed), fuel-bounded. -/
def parseVal : Nat → List Char → Option (JsonVal × List Char)
  | 0, _ => none
  | fuel + 1, cs =>
    match skipWs cs with
    | [] => none
    | 't' :: 'r' :: 'u' :: 'e' :: r => some (.bool true, r)
    | 'f' :: 'a' :: 'l' :: 's' :: 'e' :: r => some (.bool false, r)
    | 'n' :: 'u' :: 'l' :: 'l' :: r => some (.null, r)
    | '"' :: r =>
      match parseStrChars (r.length + 1) r with
      | some (chars, r2) => some (.str (String.mk chars), r2)
      | none => none
    | '\x7b' :: r =>
      (match skipWs r with
       | '\x7d' :: r2 => some (.obj [], r2)
       | _ =>
         match parseObjFields fuel r with
         | some (fs, r2) => some (.obj fs, r2)
         | none => none)
    | '[' :: r =>
      (match skipWs r with
       | ']' :: r2 => some (.arr [], r2)
       | _ =>
         match parseArrItems fuel r with
         | some (vs, r2) => some (.arr vs, r2)
         | none => none)
    | c :: r =>
      if c = '-' || isDigitChar c then parseNumber (c :: r) else none

/-- Parse one or more comma-separated array items up to `]`. -/
def parseArrItems : Nat → List Char → Option (List JsonVal × List Char)
  | 0, _ => none
  | fuel + 1, cs =>
    match parseVal fuel cs with
    | none => none
    | some (v, r) =>
      match skipWs r with
      | ',' :: r2 =>
        (match parseArrItems fuel r2 with
         | some (vs, r3) => some (v :: vs, r3)
         | none => none)
      | ']' :: r2 => some ([v], r2)
      | _ => none

/-- Parse one or more comma-separated `"key": value` pairs up to the
closing brace. -/
def parseObjFields : Nat → List Char → Option (List (String × JsonVal) × List Char)
  | 0, _ => none
  | fuel + 1, cs =>
    match skipWs cs with
    | '"' :: r =>
      (match parseStrChars (r.length + 1) r with
       | none => none
       | some (kchars, r2) =>
         match skipWs r2 with
         | ':' :: r3 =>
           (match parseVal fuel r3 with
            | none => none
            | some (v, r4) =>
              match skipWs r4 with
              | ',' :: r5 =>
                (match parseObjFields fuel r5 with
                 | some (fs, r6) => some ((String.mk kchars, v) :: fs, r6)
                 | none => none)
              | '\x7d' :: r5 => some ([(String.mk kchars, v)], r5)
              | _ => none)
         | _ => none)
    | _ => none

end

/-- `JSON.parse`: the whole input must be consumed (up to whitespace). -/
def parseJson (s : String) : Option JsonVal :=
  match parseVal (s.length * 4 + 16) s.data with
  | some (v, rest) => if skipWs rest = [] then some v else none
  | none => none

/-- JS truthiness of a JSON value (`false`, `0`, `""`, `null` are falsy;
every object/array is truthy). -/
def jsTruthy : JsonVal → Bool
  | .null => false
  | .bool b => b
  | .num m _ => m != 0
  | .str s => s != ""
  | .arr _ => true
  | .obj _ => true

/-- Truthiness of a possibly-`undefined` JS value. -/
def optTruthy : Option JsonVal → Bool
  | none => false
  | some v => jsTruthy v

/-- Is this value JS `null`?  (Plain property access on `null` throws.) -/
def isNull : JsonVal → Bool
  | .null => true
  | _ => false

/-- Object property lookup with JS `JSON.parse` duplicate-key semantics:
the last binding wins. -/
def lookupLast (fs : List (String × JsonVal)) (k : String) : Option JsonVal :=
  match fs with
  | [] => none
  | (k', v) :: rest =>
    match lookupLast rest k with
    | some w => some w
    | none => if k' = k then some v else none

/-- JS property access `v.k` on a non-null value: objects look the key up,
every other value yields `undefined` (none of the accessed keys is a
built-in property of strings, arrays or numbers). -/
def getField : JsonVal → String → Option JsonVal
  | .obj fs, k => lookupLast fs k
  | _, _ => none

/-- JS index access `v[0]`: first array element, the `"0"` property of an
object, the first character of a non-empty string; `undefined` otherwise. -/
def getIndex0 : JsonVal → Option JsonVal
  | .arr (h :: _) => some h
  | .arr [] => none
  | .obj fs => lookupLast fs "0"
  | .str s =>
    match s.data with
    | [] => none
    | c :: _ => some (.str (String.mk [c]))
  | _ => none

/-- A call warning (`LanguageModelV3CallWarning`); the adapters only ever
produce the `unsupported-feature` variant. -/
inductive Warning where
  | unsupportedFeature (feature : String)
deriving Repr, DecidableEq

/-- Usage object built by the streaming transform: each field is the raw
JSON value found at `prompt_tokens` / `completion_tokens` / `total_tokens`
(`none` models JS `undefined`). -/
structure UsageFields where
  inputTokens : Option JsonVal
  outputTokens : Option JsonVal
  totalTokens : Option JsonVal
deriving Repr

/-- Normalized stream parts emitted by `doStream`'s transform
(`LanguageModelV3StreamPart`, restricted to the variants the adapter
emits).  `error` carries the raw chunk, the diagnostic payload of the
`InvalidResponseDataError` the transform constructs. -/
inductive StreamPart where
  | streamStart (warnings : List Warning)
  | text (content : JsonVal)
  | toolCall (toolCallId : Option JsonVal) (toolName : JsonVal) (args : JsonVal)
  | finish (finishReason : String) (usage : Option UsageFields)
  | error (data : String)
deriving Repr

/-- `mapFinishReason` of `AmpChatLanguageModel` (a case-sensitive switch
with default `'other'`). -/
def mapFinishReason (reason : String) : String :=
  if reason = "stop" then "stop"
  else if reason = "length" then "length"
  else if reason = "function_call" then "tool-calls"
  else if reason = "tool_calls" then "tool-calls"
  else if reason = "content_filter" then "content-filter"
  else "other"

/-- `mapFinishReason` applied to a dynamic JSON value: the JS `switch`
compares with strict equality, so every non-string falls to the default. -/
def mapFinishReasonVal : JsonVal → String
  | .str s => mapFinishReason s
  | _ => "other"

/-- `data.choices?.[0]?.delta` of the streaming transform. -/
def deltaOf (data : JsonVal) : Option JsonVal :=
  ((getField data "choices").bind getIndex0).bind (fun c => getField c "delta")

/-- `data.choices?.[0]?.finish_reason` of the streaming transform. -/
def finishReasonOf (data : JsonVal) : Option JsonVal :=
  ((getField data "choices").bind getIndex0).bind (fun c => getField c "finish_reason")

/-- `delta.content` handling: a truthy content value is forwarded as one
`text` part. -/
def textEventsOfDelta (dv : JsonVal) : List StreamPart :=
  match getField dv "content" with
  | some c => if jsTruthy c then [.text c] else []
  | none => []

/-- One entry of `delta.tool_calls`: emitted only when both
`toolCall.function?.name` and `toolCall.function?.arguments` are truthy. -/
def toolEntryEvent (tc : JsonVal) : List StreamPart :=
  let f := getField tc "function"
  let name := f.bind (fun fv => getField fv "name")
  let args := f.bind (fun fv => getField fv "arguments")
  if optTruthy name && optTruthy args then
    [.toolCall (getField tc "id") (name.getD .null) (args.getD .null)]
  else []

/-- `for (const toolCall of delta.tool_calls)`: a `null` entry makes the
plain `toolCall.function` access throw a TypeError (second component
`true`), aborting the loop; events enqueued before the throw are kept. -/
def iterToolCalls : List JsonVal → List StreamPart × Bool
  | [] => ([], false)
  | tc :: rest =>
    if isNull tc then ([], true)
    else
      let tl := iterToolCalls rest
      (toolEntryEvent tc ++ tl.1, tl.2)

/-- `delta.tool_calls` handling: a truthy non-iterable value (number,
boolean, plain object) makes `for..of` throw; a string iterates its
characters, none of which has a `function` property, so it yields no
events. -/
def toolEventsOfDelta (dv : JsonVal) : List StreamPart × Bool
  :=
  match getField dv "tool_calls" with
  | none => ([], false)
  | some tv =>
    if jsTruthy tv then
      match tv with
      | .arr items => iterToolCalls items
      | .str _ => ([], false)
      | _ => ([], true)
    else ([], false)

/-- `data.usage ? {...} : undefined` of the streaming transform. -/
def usageOf (data : JsonVal) : Option UsageFields :=
  match getField data "usage" with
  | some u =>
    if jsTruthy u then
      some { inputTokens := getField u "prompt_tokens",
             outputTokens := getField u "completion_tokens",
             totalTokens := getField u "total_tokens" }
    else none
  | none => none

/-- Finish handling of one parsed chunk: a truthy finish reason yields one
`finish` part with the mapped reason and the optional usage. -/
def finishEventsOf (data : JsonVal) : List StreamPart :=
  match finishReasonOf data with
  | some fr =>
    if jsTruthy fr then [.finish (mapFinishReasonVal fr) (usageOf data)] else []
  | none => []

/-- Translate one successfully parsed chunk (the body of the `try` block
in `doStream`'s transform).  A thrown TypeError (`null` root value makes
`data.choices` throw; a truthy non-iterable `tool_calls` makes `for..of`
throw) is caught by the surrounding `catch`, which enqueues one `error`
part carrying the raw chunk; parts enqueued before the throw are kept. -/
def translateData (raw : String) (data : JsonVal) : List StreamPart :=
  if isNull data then [.error raw]
  else
    match deltaOf data with
    | none => []
    | some dv =>
      if jsTruthy dv then
        let tevs := textEventsOfDelta dv
        let cres := toolEventsOfDelta dv
        if cres.2 then tevs ++ cres.1 ++ [.error raw]
        else tevs ++ cres.1 ++ finishEventsOf data
      else []

/-- Events produced for one raw chunk by `doStream`'s transform:
`stream-start` first on the very first chunk, the `[DONE]` sentinel is
swallowed, a parse failure yields one `error` part, otherwise the parsed
data is translated. -/
def chunkEvents (first : Bool) (warnings : List Warning) (chunk : String) : List StreamPart :=
  (if first then [StreamPart.streamStart warnings] else []) ++
  (if chunk = "[DONE]" then []
   else
     match parseJson chunk with
     | none => [.error chunk]
     | some data => translateData chunk data)

/-- Run the transform over a chunk list, tracking the `isFirstChunk`
flag. -/
def runStreamAux (warnings : List Warning) : Bool → List String → List StreamPart
  | _, [] => []
  | first, c :: rest => chunkEvents first warnings c ++ runStreamAux warnings false rest

/-- The full stream mapping of `doStream`: raw chunk sequence in, stream
part sequence out. -/
def runStream (warnings : List Warning) (chunks : List String) : List StreamPart :=
  runStreamAux warnings true chunks

/-- Content part of a normalized user message.  The adapter reads only
`type`, `text` and `filename`; the `data` payload of a file part is
carried here to show it is never read. -/
inductive UserPart where
  | text (text : String)
  | file (filename : Option String) (data : String)
  | otherPart (partType : String)
deriving Repr, DecidableEq

/-- Content part of a normalized assistant message. -/
inductive AssistantPart where
  | text (text : String)
  | toolCall (toolCallId : String) (toolName : String) (args : String)
  | otherPart (partType : String)
deriving Repr, DecidableEq

/-- Content part of a normalized tool message (only `toolName` and
`result` are read by the adapters). -/
structure ToolResultPart where
  toolName : String
  result : Option JsonVal
deriving Repr

/-- A normalized prompt message (`LanguageModelV3Prompt` element).
`otherRole` stands for any role outside the four recognized ones. -/
inductive NMessage where
  | system (content : String)
  | user (content : List UserPart)
  | assistant (content : List AssistantPart)
  | tool (content : List ToolResultPart)
  | otherRole (role : String)
deriving Repr

/-- The `function` payload of a native tool call. -/
structure AmpToolCallFunction where
  name : String
  arguments : String
deriving Repr, DecidableEq

/-- One entry of a native `tool_calls` list (`type` is always the literal
`"function"`). -/
structure AmpToolCall where
  id : String
  type : String
  function : AmpToolCallFunction
deriving Repr, DecidableEq

/-- A native chat message (`AmpMessage` interface).  `tool_calls = none`
models the field being absent from the object. -/
structure AmpMsg where
  role : String
  content : String
  name : Option String := none
  tool_calls : Option (List AmpToolCall) := none
deriving Repr

/-- JSON string escaping used by `JSON.stringify`. -/
def escapeJsonChar (c : Char) : String :=
  if c = '"' then "\\\""
  else if c = '\\' then "\\\\"
  else if c = '\n' then "\\n"
  else if c = '\r' then "\\r"
  else if c = '\t' then "\\t"
  else if c = '\x08' then "\\b"
  else if c = '\x0c' then "\\f"
  else if c.toNat < 32 then
    "\\u00" ++ String.mk [(Nat.digitChar (c.toNat / 16)), (Nat.digitChar (c.toNat % 16))]
  else String.mk [c]

def stringifyStringBody (s : String) : String :=
  String.join (s.data.map escapeJsonChar)

def stringifyNum (m : Int) (e : Int) : String :=
  if e = 0 then toString m else toString m ++ "e" ++ toString e

mutual

/-- `JSON.stringify` on a JSON value (used for tool-result message
content). -/
def jsonStringify : JsonVal → String
  | .null => "null"
  | .bool true => "true"
  | .bool false => "false"
  | .num m e => stringifyNum m e
  | .str s => "\"" ++ stringifyStringBody s ++ "\""
  | .arr xs => "[" ++ String.intercalate "," (stringifyList xs) ++ "]"
  | .obj fs => "\x7b" ++ String.intercalate "," (stringifyFields fs) ++ "\x7d"

def stringifyList : List JsonVal → List String
  | [] => []
  | x :: xs => jsonStringify x :: stringifyList xs

def stringifyFields : List (String × JsonVal) → List String
  | [] => []
  | (k, v) :: fs =>
    ("\"" ++ stringifyStringBody k ++ "\":" ++ jsonStringify v) :: stringifyFields fs

end

/-- `part.filename || 'unknown'` of the file-part placeholder: the JS
`||` falls through on a falsy filename, so both an absent and a
present-but-empty filename degrade to `"unknown"`. -/
def filenameOrUnknown : Option String → String
  | some f => if f ≠ "" then f else "unknown"
  | none => "unknown"

/-- Per-part conversion inside the chat adapter's user-message branch of
`convertToAmpMessages`: the rendered string together with the warnings the
part pushes.  A file part always degrades to the `[File: ...]` placeholder
plus one `unsupported-feature` warning; its data is never read. -/
def renderUserPart : UserPart → String × List Warning
  | .text t => (t, [])
  | .file fn _ =>
    ("[File: " ++ filenameOrUnknown fn ++ "]", [.unsupportedFeature "file attachments"])
  | .otherPart _ => ("", [])

/-- Text extraction for the assistant branch
(`content.filter(type === 'text').map(part.text)`). -/
def assistantTextOf : AssistantPart → Option String
  | .text t => some t
  | _ => none

/-- Tool-call extraction for the assistant branch
(`content.filter(type === 'tool-call').map({id, type: 'function', function:
{name, arguments}})`). -/
def assistantToolCallOf : AssistantPart → Option AmpToolCall
  | .toolCall i n a => some { id := i, type := "function", function := { name := n, arguments := a } }
  | _ => none

def isAssistantToolCall : AssistantPart → Bool
  | .toolCall _ _ _ => true
  | _ => false

/-- `message.content[0]?.result || ''` for a tool message: a falsy or
absent result degrades to the empty string before stringification. -/
def toolResultVal (parts : List ToolResultPart) : JsonVal :=
  match parts.head? with
  | some p =>
    (match p.result with
     | some r => if jsTruthy r then r else .str ""
     | none => .str "")
  | none => .str ""

/-- `message.content[0]?.toolName || 'unknown'` for a tool message. -/
def toolNameOf (parts : List ToolResultPart) : String :=
  match parts.head? with
  | some p => if p.toolName ≠ "" then p.toolName else "unknown"
  | none => "unknown"

/-- The native assistant message built by `convertToAmpMessages`: text
parts joined by newline, and a `tool_calls` field spread in only when the
extracted tool-call list is non-empty
(`...(toolCalls.length > 0 && { tool_calls: toolCalls })`). -/
def convAssistantMsg (parts : List AssistantPart) : AmpMsg :=
  let toolCalls := parts.filterMap assistantToolCallOf
  { role := "assistant",
    content := String.intercalate "\n" (parts.filterMap assistantTextOf),
    tool_calls := if toolCalls.length > 0 then some toolCalls else none }

/-- Conversion of one normalized message by the chat adapter
(`convertToAmpMessages`'s `switch`): the native message plus the warnings
pushed while converting it; an unrecognized role throws
`Error('Unsupported message role: ...')`. -/
def convertOneMsg : NMessage → Except String (AmpMsg × List Warning)
  | .system c => .ok ({ role := "system", content := c }, [])
  | .user parts =>
    .ok ({ role := "user",
           content := String.intercalate "\n" (parts.map (fun p => (renderUserPart p).1)) },
         parts.flatMap (fun p => (renderUserPart p).2))
  | .assistant parts => .ok (convAssistantMsg parts, [])
  | .tool parts =>
    .ok ({ role := "function",
           name := some (toolNameOf parts),
           content := jsonStringify (toolResultVal parts) }, [])
  | .otherRole r => .error ("Unsupported message role: " ++ r)

/-- `convertToAmpMessages`: `prompt.map(...)` with a mutable warnings
accumulator; the first unrecognized role throws and aborts the whole
conversion. -/
def convertToAmpMessages : List NMessage → Except String (List AmpMsg × List Warning)
  | [] => .ok ([], [])
  | m :: rest =>
    match convertOneMsg m with
    | .error e => .error e
    | .ok (am, ws) =>
      match convertToAmpMessages rest with
      | .error e => .error e
      | .ok (ams, ws') => .ok (am :: ams, ws ++ ws')

/-- A normalized output content part (`LanguageModelV3Content`, restricted
to the variants the adapters produce). -/
inductive LMContent where
  | text (text : String)
  | toolCall (toolCallId : String) (toolName : String) (args : String)
deriving Repr, DecidableEq

/-- Native usage block of a (non-streaming) chat response. -/
structure AmpUsage where
  prompt_tokens : Nat
  completion_tokens : Nat
  total_tokens : Nat
deriving Repr

/-- One choice of a native chat response. -/
structure AmpChoice where
  message : AmpMsg
  finish_reason : String
  index : Nat
deriving Repr

/-- A native chat response (`AmpResponse` interface). -/
structure AmpResponse where
  choices : List AmpChoice
  usage : AmpUsage
  model : String
deriving Repr

/-- `convertFromAmpContent`: push one `text` part when the message text is
truthy (non-empty), then push one `tool-call` part per native tool call in
listed order. -/
def convertFromAmpContent (m : AmpMsg) : List LMContent :=
  let content : List LMContent := []
  let content := if m.content ≠ "" then content ++ [.text m.content] else content
  match m.tool_calls with
  | none => content
  | some tcs =>
    tcs.foldl (fun acc tc => acc ++ [.toolCall tc.id tc.function.name tc.function.arguments]) content

/-- Normalized usage of a unary generate result. -/
structure UsageNat where
  inputTokens : Nat
  outputTokens : Nat
  totalTokens : Nat
deriving Repr, DecidableEq

/-- Error thrown by the chat adapter's response mapping.  (The `catch`
block routes it through `handleError`, which rethrows any error that is
not an HTTP `Response` unchanged, so it reaches the caller as is.) -/
inductive ThrownError where
  | invalidResponseData (message : String)
deriving Repr, DecidableEq

/-- The normalized result of the chat adapter's `doGenerate` (the
`request`/`response` echo fields are pass-throughs of the inputs and are
not modelled separately). -/
structure ChatGenResult where
  content : List LMContent
  finishReason : String
  usage : UsageNat
  warnings : List Warning
deriving Repr

/-- The response-mapping portion of the chat adapter's `doGenerate`
(everything after the transport call): `choices[0]` is taken; an empty
choices list throws `InvalidResponseDataError('No choices in response')`,
otherwise content, finish reason and usage are mapped. -/
def doGenerateFromResponse (warnings : List Warning) (data : AmpResponse) :
    Except ThrownError ChatGenResult :=
  match data.choices.head? with
  | none => .error (.invalidResponseData "No choices in response")
  | some choice =>
    .ok { content := convertFromAmpContent choice.message,
          finishReason := mapFinishReason choice.finish_reason,
          usage := { inputTokens := data.usage.prompt_tokens,
                     outputTokens := data.usage.completion_tokens,
                     totalTokens := data.usage.total_tokens },
          warnings := warnings }

/-- Settings of the agent adapter that its embedded operations read
(`systemPrompt` for `buildPrompt`; `cwd`, `toolbox`,
`dangerouslyAllowAll` for `buildAmpOptions`; the unread numeric
overrides are not modelled). -/
structure AgentSettings where
  cwd : Option String := none
  toolbox : Option String := none
  dangerouslyAllowAll : Option Bool := none
  systemPrompt : Option String := none
deriving Repr

/-- `buildAmpOptions`: each option is set only when the setting is
truthy. -/
structure AmpOptions where
  cwd : Option String := none
  toolbox : Option String := none
  dangerouslyAllowAll : Option Bool := none
deriving Repr

def buildAmpOptions (s : AgentSettings) : AmpOptions :=
  { cwd := match s.cwd with
      | some c => if c ≠ "" then some c else none
      | none => none,
    toolbox := match s.toolbox with
      | some t => if t ≠ "" then some t else none
      | none => none,
    dangerouslyAllowAll := match s.dangerouslyAllowAll with
      | some true => some true
      | _ => none }

def ampCodePrompt : String :=
  "You are an expert coding assistant. You help with code analysis, generation, debugging, and refactoring. Always provide clear, working code examples and explain your reasoning."

def ampReasoningPrompt : String :=
  "You are a reasoning assistant focused on problem-solving and analysis. Break down complex problems step by step and provide detailed explanations."

def ampChatPrompt : String :=
  "You are a helpful AI assistant."

/-- `DEFAULT_CODING_PROMPTS[modelId] || DEFAULT_CODING_PROMPTS['amp-chat']`. -/
def defaultCodingPrompt (modelId : String) : String :=
  if modelId = "amp-code" then ampCodePrompt
  else if modelId = "amp-reasoning" then ampReasoningPrompt
  else ampChatPrompt

/-- `this.settings.systemPrompt || DEFAULT_CODING_PROMPTS[...] || ...`:
a falsy (absent or empty) settings override falls back to the default. -/
def systemPromptOf (s : AgentSettings) (modelId : String) : String :=
  match s.systemPrompt with
  | some sp => if sp ≠ "" then sp else defaultCodingPrompt modelId
  | none => defaultCodingPrompt modelId

/-- User-part rendering in the agent adapter's `buildPrompt`: same
placeholder for file parts, but no warning is pushed (the function has no
warnings accumulator). -/
def renderAgentUserPart : UserPart → String
  | .text t => t
  | .file fn _ => "[File: " ++ filenameOrUnknown fn ++ "]"
  | .otherPart _ => ""

/-- One line of the agent adapter's flattened prompt: the `switch` inside
`buildPrompt`'s `map`.  An unrecognized role yields the empty string,
which the subsequent `.filter(Boolean)` silently drops. -/
def agentMessageLine : NMessage → String
  | .system c => "System: " ++ c
  | .user parts => "User: " ++ String.intercalate "\n" (parts.map renderAgentUserPart)
  | .assistant parts =>
    "Assistant: " ++ String.intercalate "\n" (parts.filterMap assistantTextOf)
  | .tool parts => "Tool result: " ++ jsonStringify (toolResultVal parts)
  | .otherRole _ => ""

/-- `buildPrompt` of the agent adapter: system prompt, blank line, the
non-empty rendered message lines joined by blank lines. -/
def buildPrompt (s : AgentSettings) (modelId : String) (prompt : List NMessage) : String :=
  systemPromptOf s modelId ++ "\n\n" ++
    String.intercalate "\n\n" ((prompt.map agentMessageLine).filter (fun l => l != ""))

/-- Event produced by the external agent execution
(`execute(prompt, options)`); only `text` and `result` events are read. -/
inductive AgentEvent where
  | text (content : String)
  | result (result : String)
  | otherEvent (typ : String)
deriving Repr, DecidableEq

def isTextEvt : AgentEvent → Bool
  | .text _ => true
  | _ => false

def isResultEvt : AgentEvent → Bool
  | .result _ => true
  | _ => false

def resultTextOf : AgentEvent → String
  | .result r => r
  | _ => ""

def textContentOf : AgentEvent → String
  | .text c => c
  | _ => ""

/-- `resultMessage?.result || texts.join('') || 'No response from agent'`
of the agent adapter's `doGenerate`. -/
def finalTextOf (events : List AgentEvent) : String :=
  let joined := String.join ((events.filter isTextEvt).map textContentOf)
  let fallback := if joined ≠ "" then joined else "No response from agent"
  match events.find? isResultEvt with
  | some e => if resultTextOf e ≠ "" then resultTextOf e else fallback
  | none => fallback

/-- Result of the agent adapter's `doGenerate` (the `request`/`response`
echo fields are pass-throughs and not modelled separately). -/
structure AgentGenResult where
  content : List LMContent
  finishReason : String
  usage : UsageNat
  warnings : List Warning
deriving Repr

/-- The agent adapter's `doGenerate`, with the event list yielded by the
external `execute` call passed in explicitly: the final text is wrapped in
a single `text` content part, the finish reason is the literal `'stop'`,
and usage is approximated by string lengths of the flattened prompt and
the final text.  The `warnings` array is created empty and never appended
to. -/
def agentDoGenerate (s : AgentSettings) (modelId : String) (prompt : List NMessage)
    (events : List AgentEvent) : AgentGenResult :=
  let p := buildPrompt s modelId prompt
  let finalText := finalTextOf events
  { content := [.text finalText],
    finishReason := "stop",
    usage := { inputTokens := p.length,
               outputTokens := finalText.length,
               totalTokens := p.length + finalText.length },
    warnings := [] }

def isFilePart : UserPart → Bool
  | .file _ _ => true
  | _ => false

/-- Number of file parts in the user messages of a prompt. -/
def msgFileCount : NMessage → Nat
  | .user parts => (parts.filter isFilePart).length
  | _ => 0

def promptFileCount (prompt : List NMessage) : Nat :=
  (prompt.map msgFileCount).sum

def isOtherRole : NMessage → Bool
  | .otherRole _ => true
  | _ => false

def isFinishEvt : StreamPart → Bool
  | .finish _ _ => true
  | _ => false

/-- First raw chunk of the spec's stream scenario. -/
def chunk1Raw : String :=
  "\x7b\"choices\":[\x7b\"delta\":\x7b\"content\":\"Hi\"\x7d\x7d]\x7d"

/-- Second raw chunk of the spec's stream scenario (empty delta, finish
reason and usage). -/
def chunk2Raw : String :=
  "\x7b\"choices\":[\x7b\"delta\":\x7b\x7d,\"finish_reason\":\"stop\"\x7d], \"usage\":\x7b\"prompt_tokens\":3,\"completion_tokens\":1,\"total_tokens\":4\x7d\x7d"

/-- A well-formed JSON chunk whose first choice carries a finish reason
but no `delta` field. -/
def noDeltaChunk : String :=
  "\x7b\"choices\":[\x7b\"finish_reason\":\"stop\"\x7d]\x7d"

/-! ## Helper lemmas -/

theorem foldl_push_append {α β : Type} (f : α → β) (l : List α) (init : List β) :
    l.foldl (fun acc x => acc ++ [f x]) init = init ++ l.map f := by
  induction l generalizing init with
  | nil => simp
  | cons x xs ih => simp [List.foldl_cons, ih]

theorem append_ne_empty_left (p c : String) (h : 0 < p.length) : p ++ c ≠ "" := by
  intro he
  have hl := congrArg String.length he
  rw [String.length_append] at hl
  have h0 : ("" : String).length = 0 := rfl
  omega

/-! ## Claim theorems -/

/-- C1: for the HTTP chat adapter's stream mapper, the raw chunk sequence
consisting of the literal chunks
`{"choices":[{"delta":{"content":"Hi"}}]}`,
`{"choices":[{"delta":{},"finish_reason":"stop"}], "usage":{"prompt_tokens":3,"completion_tokens":1,"total_tokens":4}}`
and `[DONE]` produces exactly three events in order: `stream-start`, a
`text` event with text `"Hi"`, and a `finish` event with finish reason
`"stop"` and usage 3/1/4; the `[DONE]` sentinel produces no event. -/
theorem chatStream_example_sequence (ws : List Warning) :
    runStream ws [chunk1Raw, chunk2Raw, "[DONE]"] =
      [StreamPart.streamStart ws,
       StreamPart.text (JsonVal.str "Hi"),
       StreamPart.finish "stop"
         (some { inputTokens := some (JsonVal.num 3 0),
                 outputTokens := some (JsonVal.num 1 0),
                 totalTokens := some (JsonVal.num 4 0) })] := rfl

/-- C2: whenever the native HTTP backend response carries an empty
`choices` array, the response mapping of `doGenerate` raises
`InvalidResponseDataError('No choices in response')` and never returns a
(partial) result. -/
theorem doGenerate_empty_choices_error (ws : List Warning) (data : AmpResponse)
    (h : data.choices = []) :
    doGenerateFromResponse ws data =
      .error (.invalidResponseData "No choices in response") := by
  simp [doGenerateFromResponse, h]

theorem doGenerate_empty_choices_error_witness :
    doGenerateFromResponse []
        { choices := [], usage := { prompt_tokens := 0, completion_tokens := 0, total_tokens := 0 },
          model := "amp-chat" } =
      .error (.invalidResponseData "No choices in response") :=
  doGenerate_empty_choices_error [] _ rfl

/-- C6: for every native response choice message, the mapped content is
the text part (exactly one, first, present iff the message text is
non-empty) followed by one `tool-call` part per native tool-call entry in
the listed order, and nothing else. -/
theorem convertFromAmpContent_ordering (m : AmpMsg) :
    convertFromAmpContent m =
      (if m.content = "" then [] else [LMContent.text m.content]) ++
        (m.tool_calls.getD []).map
          (fun tc => LMContent.toolCall tc.id tc.function.name tc.function.arguments) := by
  cases htc : m.tool_calls with
  | none =>
    simp only [convertFromAmpContent, htc]
    by_cases hc : m.content = "" <;> simp [hc]
  | some tcs =>
    simp only [convertFromAmpContent, htc]
    rw [foldl_push_append]
    by_cases hc : m.content = "" <;> simp [hc]

/-- C7: the finish-reason mapping is total and case-sensitive: `"stop"`,
`"length"`, `"function_call"`, `"tool_calls"` and `"content_filter"` map
to their normalized counterparts and every other string maps to
`"other"`. -/
theorem mapFinishReason_table :
    mapFinishReason "stop" = "stop" ∧
    mapFinishReason "length" = "length" ∧
    mapFinishReason "function_call" = "tool-calls" ∧
    mapFinishReason "tool_calls" = "tool-calls" ∧
    mapFinishReason "content_filter" = "content-filter" ∧
    ∀ r : String, r ≠ "stop" → r ≠ "length" → r ≠ "function_call" →
      r ≠ "tool_calls" → r ≠ "content_filter" → mapFinishReason r = "other" := by
  refine ⟨rfl, rfl, rfl, rfl, rfl, ?_⟩
  intro r h1 h2 h3 h4 h5
  simp [mapFinishReason, h1, h2, h3, h4, h5]

theorem mapFinishReason_table_witness : mapFinishReason "Stop" = "other" :=
  mapFinishReason_table.2.2.2.2.2 "Stop" (by decide) (by decide) (by decide)
    (by decide) (by decide)

/-- C8: a non-sentinel raw chunk that fails to parse as JSON produces
exactly one `error` event carrying the raw chunk, and the stream
continues: the remaining chunks are processed unchanged. -/
theorem malformed_chunk_single_error (ws : List Warning) (s : String) (rest : List String)
    (hs : s ≠ "[DONE]") (hp : parseJson s = none) :
    runStreamAux ws false (s :: rest) =
      StreamPart.error s :: runStreamAux ws false rest := by
  simp [runStreamAux, chunkEvents, hs, hp]

theorem malformed_chunk_single_error_witness :
    runStreamAux [] false ["not json", chunk1Raw] =
      [StreamPart.error "not json", StreamPart.text (JsonVal.str "Hi")] := by
  rw [malformed_chunk_single_error [] "not json" [chunk1Raw] (by decide) rfl]
  rfl

/-- C9: the native assistant message carries a `tool_calls` list of
exactly the same length and order as the message's tool-call parts, each
entry being `{id, type: "function", function: {name, arguments}}`; with
zero tool-call parts the field is absent (`none`), not present-but-empty. -/
theorem assistant_tool_calls_field (parts : List AssistantPart) :
    convertOneMsg (NMessage.assistant parts) = .ok (convAssistantMsg parts, []) ∧
    (convAssistantMsg parts).tool_calls =
      (if parts.filterMap assistantToolCallOf = [] then none
       else some (parts.filterMap assistantToolCallOf)) ∧
    (parts.filterMap assistantToolCallOf).length =
      (parts.filter isAssistantToolCall).length ∧
    (∀ i n a, assistantToolCallOf (AssistantPart.toolCall i n a) =
      some { id := i, type := "function",
             function := { name := n, arguments := a } }) := by
  refine ⟨rfl, ?_, ?_, fun i n a => rfl⟩
  · simp only [convAssistantMsg]
    by_cases h : parts.filterMap assistantToolCallOf = []
    · simp [h]
    · have hpos : 0 < (parts.filterMap assistantToolCallOf).length :=
        List.length_pos.mpr h
      simp [h, hpos]
  · induction parts with
    | nil => rfl
    | cons p ps ih =>
      cases p <;> simp [assistantToolCallOf, isAssistantToolCall, ih]

theorem convertOneMsg_ok_of_not_other (m : NMessage) (h : isOtherRole m = false) :
    ∃ pr, convertOneMsg m = .ok pr := by
  cases m with
  | system c => exact ⟨_, rfl⟩
  | user p => exact ⟨_, rfl⟩
  | assistant p => exact ⟨_, rfl⟩
  | tool p => exact ⟨_, rfl⟩
  | otherRole r => simp [isOtherRole] at h

theorem chat_error_on_other_role (prompt : List NMessage)
    (h : ∃ r, NMessage.otherRole r ∈ prompt) :
    ∃ r', convertToAmpMessages prompt = .error ("Unsupported message role: " ++ r') := by
  induction prompt with
  | nil =>
    obtain ⟨r, hr⟩ := h
    exact absurd hr (List.not_mem_nil _)
  | cons m rest ih =>
    obtain ⟨r, hr⟩ := h
    by_cases hm : isOtherRole m = true
    · cases m with
      | otherRole r0 => exact ⟨r0, by simp [convertToAmpMessages, convertOneMsg]⟩
      | system c => simp [isOtherRole] at hm
      | user p => simp [isOtherRole] at hm
      | assistant p => simp [isOtherRole] at hm
      | tool p => simp [isOtherRole] at hm
    · have hr2 : NMessage.otherRole r ∈ rest := by
        rcases List.mem_cons.mp hr with h1 | h2
        · exact absurd (h1 ▸ rfl : isOtherRole m = true) hm
        · exact h2
      obtain ⟨⟨am, ws⟩, hpr⟩ :=
        convertOneMsg_ok_of_not_other m (Bool.eq_false_iff.mpr hm)
      obtain ⟨r', hr'⟩ := ih ⟨r, hr2⟩
      exact ⟨r', by simp [convertToAmpMessages, hpr, hr']⟩

theorem agentLines_drop_other (prompt : List NMessage) :
    ((prompt.filter (fun m => !isOtherRole m)).map agentMessageLine).filter
        (fun l => l != "") =
      (prompt.map agentMessageLine).filter (fun l => l != "") := by
  induction prompt with
  | nil => rfl
  | cons m rest ih =>
    cases m with
    | otherRole r =>
      have hdrop : (!isOtherRole (NMessage.otherRole r)) = false := rfl
      have hempty : (agentMessageLine (NMessage.otherRole r) != "") = false := rfl
      simp only [List.filter_cons, List.map_cons, hdrop, hempty, Bool.false_eq_true,
        if_false, ih]
    | system c =>
      have hkeep : (!isOtherRole (NMessage.system c)) = true := rfl
      have hne : (agentMessageLine (NMessage.system c) != "") = true :=
        bne_iff_ne.mpr (append_ne_empty_left _ c (by decide))
      simp only [List.filter_cons, List.map_cons, hkeep, hne, eq_self_iff_true,
        if_true, ih]
    | user p =>
      have hkeep : (!isOtherRole (NMessage.user p)) = true := rfl
      have hne : (agentMessageLine (NMessage.user p) != "") = true :=
        bne_iff_ne.mpr (append_ne_empty_left _ _ (by decide))
      simp only [List.filter_cons, List.map_cons, hkeep, hne, eq_self_iff_true,
        if_true, ih]
    | assistant p =>
      have hkeep : (!isOtherRole (NMessage.assistant p)) = true := rfl
      have hne : (agentMessageLine (NMessage.assistant p) != "") = true :=
        bne_iff_ne.mpr (append_ne_empty_left _ _ (by decide))
      simp only [List.filter_cons, List.map_cons, hkeep, hne, eq_self_iff_true,
        if_true, ih]
    | tool p =>
      have hkeep : (!isOtherRole (NMessage.tool p)) = true := rfl
      have hne : (agentMessageLine (NMessage.tool p) != "") = true :=
        bne_iff_ne.mpr (append_ne_empty_left _ _ (by decide))
      simp only [List.filter_cons, List.map_cons, hkeep, hne, eq_self_iff_true,
        if_true, ih]

theorem buildPrompt_drop_other (s : AgentSettings) (mid : String) (prompt : List NMessage) :
    buildPrompt s mid (prompt.filter (fun m => !isOtherRole m)) = buildPrompt s mid prompt := by
  unfold buildPrompt
  rw [agentLines_drop_other]

/-- C3 (amended): a prompt message with an unrecognized role makes the
HTTP chat adapter's Request Builder throw
`Error('Unsupported message role: ...')` — a hard failure, never a
warning; the agent adapter's Request Builder instead silently drops such
messages (its output is unchanged when they are removed), producing
neither an error nor a warning. -/
theorem unsupported_role_corrected :
    (∀ prompt : List NMessage, (∃ r, NMessage.otherRole r ∈ prompt) →
      ∃ r', convertToAmpMessages prompt = .error ("Unsupported message role: " ++ r')) ∧
    (∀ (s : AgentSettings) (mid : String) (prompt : List NMessage),
      buildPrompt s mid (prompt.filter (fun m => !isOtherRole m)) = buildPrompt s mid prompt) :=
  ⟨chat_error_on_other_role, buildPrompt_drop_other⟩

theorem unsupported_role_corrected_witness :
    ∃ r', convertToAmpMessages [NMessage.otherRole "weird"] =
      .error ("Unsupported message role: " ++ r') :=
  unsupported_role_corrected.1 _ ⟨"weird", List.mem_singleton.mpr rfl⟩

/-- Counterexample to C3 as stated: the agent adapter's Request Builder
(`buildPrompt`) does NOT fail on an unrecognized role — it returns a
normal prompt string, identical to the one built from the empty prompt,
i.e. the offending message is silently defaulted away. -/
theorem agent_unknown_role_silently_dropped :
    buildPrompt {} "amp-chat" [NMessage.otherRole "weird"] =
      buildPrompt {} "amp-chat" [] ∧
    buildPrompt {} "amp-chat" [NMessage.otherRole "weird"] = ampChatPrompt ++ "\n\n" :=
  ⟨rfl, rfl⟩

theorem userParts_warnings (parts : List UserPart) :
    (parts.flatMap (fun p => (renderUserPart p).2)).length =
      (parts.filter isFilePart).length ∧
    ∀ w ∈ parts.flatMap (fun p => (renderUserPart p).2),
      w = Warning.unsupportedFeature "file attachments" := by
  induction parts with
  | nil => exact ⟨rfl, by simp⟩
  | cons p ps ih =>
    cases p with
    | text t =>
      have e1 : (renderUserPart (UserPart.text t)).2 = [] := rfl
      have e2 : isFilePart (UserPart.text t) = false := rfl
      refine ⟨?_, ?_⟩
      · rw [List.flatMap_cons, e1, List.filter_cons, e2]
        simp only [List.nil_append, Bool.false_eq_true, if_false]
        exact ih.1
      · intro w hw
        rw [List.flatMap_cons, e1, List.nil_append] at hw
        exact ih.2 w hw
    | file fn d =>
      have e1 : (renderUserPart (UserPart.file fn d)).2 =
        [Warning.unsupportedFeature "file attachments"] := rfl
      have e2 : isFilePart (UserPart.file fn d) = true := rfl
      refine ⟨?_, ?_⟩
      · rw [List.flatMap_cons, e1, List.filter_cons, e2]
        have h1 := ih.1
        simp only [eq_self_iff_true, if_true, List.length_append, List.length_cons,
          List.length_nil]
        omega
      · intro w hw
        rw [List.flatMap_cons, e1] at hw
        rcases List.mem_append.mp hw with h | h
        · simpa using h
        · exact ih.2 w h
    | otherPart t =>
      have e1 : (renderUserPart (UserPart.otherPart t)).2 = [] := rfl
      have e2 : isFilePart (UserPart.otherPart t) = false := rfl
      refine ⟨?_, ?_⟩
      · rw [List.flatMap_cons, e1, List.filter_cons, e2]
        simp only [List.nil_append, Bool.false_eq_true, if_false]
        exact ih.1
      · intro w hw
        rw [List.flatMap_cons, e1, List.nil_append] at hw
        exact ih.2 w hw

theorem convertOneMsg_warnings (m : NMessage) (am : AmpMsg) (ws : List Warning)
    (h : convertOneMsg m = .ok (am, ws)) :
    ws.length = msgFileCount m ∧
    ∀ w ∈ ws, w = Warning.unsupportedFeature "file attachments" := by
  cases m with
  | system c =>
    simp only [convertOneMsg, Except.ok.injEq, Prod.mk.injEq] at h
    obtain ⟨_, h2⟩ := h
    subst h2
    exact ⟨rfl, by simp⟩
  | user parts =>
    simp only [convertOneMsg, Except.ok.injEq, Prod.mk.injEq] at h
    obtain ⟨_, h2⟩ := h
    subst h2
    simpa [msgFileCount] using userParts_warnings parts
  | assistant parts =>
    simp only [convertOneMsg, Except.ok.injEq, Prod.mk.injEq] at h
    obtain ⟨_, h2⟩ := h
    subst h2
    exact ⟨rfl, by simp⟩
  | tool parts =>
    simp only [convertOneMsg, Except.ok.injEq, Prod.mk.injEq] at h
    obtain ⟨_, h2⟩ := h
    subst h2
    exact ⟨rfl, by simp⟩
  | otherRole r => simp [convertOneMsg] at h

theorem chat_warnings_count (prompt : List NMessage) (res : List AmpMsg × List Warning)
    (h : convertToAmpMessages prompt = .ok res) :
    res.2.length = promptFileCount prompt ∧
    ∀ w ∈ res.2, w = Warning.unsupportedFeature "file attachments" := by
  induction prompt generalizing res with
  | nil =>
    simp only [convertToAmpMessages, Except.ok.injEq] at h
    subst h
    exact ⟨rfl, by simp⟩
  | cons m rest ih =>
    cases hm : convertOneMsg m with
    | error e => simp [convertToAmpMessages, hm] at h
    | ok pr =>
      obtain ⟨am, ws⟩ := pr
      cases hr : convertToAmpMessages rest with
      | error e => simp [convertToAmpMessages, hm, hr] at h
      | ok res' =>
        obtain ⟨ams, ws'⟩ := res'
        simp only [convertToAmpMessages, hm, hr, Except.ok.injEq] at h
        subst h
        obtain ⟨h1, h2⟩ := convertOneMsg_warnings m am ws hm
        obtain ⟨h3, h4⟩ := ih (ams, ws') hr
        refine ⟨?_, ?_⟩
        · simp only [List.length_append, promptFileCount, List.map_cons, List.sum_cons]
          simp only [promptFileCount] at h3
          omega
        · intro w hw
          rcases List.mem_append.mp hw with hmem | hmem
          · exact h2 w hmem
          · exact h4 w hmem

/-- C4 (amended): both adapters replace a user-message file part by the
literal placeholder `[File: <filename>]` — `[File: unknown]` when the
filename is absent or empty (the source's `part.filename || 'unknown'`) —
and never read the file data; the HTTP chat adapter emits exactly one
`unsupported-feature` warning per file part, while the agent adapter
emits no warning at all (its result's warnings list is always empty). -/
theorem file_part_warning_corrected :
    (∀ (prompt : List NMessage) (res : List AmpMsg × List Warning),
      convertToAmpMessages prompt = .ok res →
      res.2.length = promptFileCount prompt ∧
      ∀ w ∈ res.2, w = Warning.unsupportedFeature "file attachments") ∧
    (∀ (fn : Option String) (d : String),
      (renderUserPart (UserPart.file fn d)).1 =
        "[File: " ++ filenameOrUnknown fn ++ "]" ∧
      (renderUserPart (UserPart.file fn d)).2 =
        [Warning.unsupportedFeature "file attachments"] ∧
      renderAgentUserPart (UserPart.file fn d) =
        "[File: " ++ filenameOrUnknown fn ++ "]") ∧
    (filenameOrUnknown none = "unknown" ∧ filenameOrUnknown (some "") = "unknown" ∧
      ∀ f : String, f ≠ "" → filenameOrUnknown (some f) = f) ∧
    (∀ (s : AgentSettings) (mid : String) (prompt : List NMessage)
        (events : List AgentEvent),
      (agentDoGenerate s mid prompt events).warnings = []) :=
  ⟨chat_warnings_count, fun _ _ => ⟨rfl, rfl, rfl⟩,
   ⟨rfl, rfl, fun f hf => by simp [filenameOrUnknown, hf]⟩,
   fun _ _ _ _ => rfl⟩

theorem file_part_warning_corrected_witness :
    ([Warning.unsupportedFeature "file attachments"] : List Warning).length =
      promptFileCount [NMessage.user [UserPart.file (some "a.txt") "x", UserPart.text "hi"]] :=
  (file_part_warning_corrected.1
    [NMessage.user [UserPart.file (some "a.txt") "x", UserPart.text "hi"]]
    ([{ role := "user", content := "[File: a.txt]\nhi" }],
     [Warning.unsupportedFeature "file attachments"]) rfl).1

/-- Counterexample to C4 as stated: the agent adapter substitutes the
placeholder but emits ZERO warnings for a prompt containing one file
part (its warnings list is empty), so "either adapter emits exactly one
unsupported-feature warning per file part" fails. -/
theorem agent_file_part_no_warning :
    (agentDoGenerate {} "amp-chat"
        [NMessage.user [UserPart.file none "SECRET"]] []).warnings = [] ∧
    promptFileCount [NMessage.user [UserPart.file none "SECRET"]] = 1 :=
  ⟨rfl, rfl⟩

theorem textEvents_no_finish (dv : JsonVal) :
    (textEventsOfDelta dv).filter isFinishEvt = [] := by
  unfold textEventsOfDelta
  cases getField dv "content" with
  | none => rfl
  | some c =>
    by_cases h : jsTruthy c = true <;> simp [h, isFinishEvt]

theorem toolEntry_no_finish (tc : JsonVal) :
    (toolEntryEvent tc).filter isFinishEvt = [] := by
  simp only [toolEntryEvent]
  split <;> simp [isFinishEvt]

theorem iterToolCalls_no_finish (items : List JsonVal) :
    ((iterToolCalls items).1).filter isFinishEvt = [] := by
  induction items with
  | nil => rfl
  | cons tc rest ih =>
    simp only [iterToolCalls]
    by_cases h : isNull tc = true
    · simp [h]
    · simp [h, List.filter_append, toolEntry_no_finish, ih]

theorem toolEvents_no_finish (dv : JsonVal) :
    ((toolEventsOfDelta dv).1).filter isFinishEvt = [] := by
  unfold toolEventsOfDelta
  cases getField dv "tool_calls" with
  | none => rfl
  | some tv =>
    by_cases h : jsTruthy tv = true
    · simp only [h, if_true]
      cases tv <;> simp [iterToolCalls_no_finish]
    · simp [h]

theorem stream_finish_last_aux (ws : List Warning) (s : String)
    (data dv fr : JsonVal)
    (hp : parseJson s = some data)
    (hd : deltaOf data = some dv)
    (hdt : jsTruthy dv = true)
    (hf : finishReasonOf data = some fr)
    (hft : jsTruthy fr = true)
    (hnothrow : (toolEventsOfDelta dv).2 = false) :
    ∃ evs, chunkEvents false ws s =
        evs ++ [StreamPart.finish (mapFinishReasonVal fr) (usageOf data)] ∧
      evs.filter isFinishEvt = [] := by
  have hdone : s ≠ "[DONE]" := by
    intro he
    rw [he] at hp
    have hnone : parseJson "[DONE]" = none := rfl
    rw [hnone] at hp
    cases hp
  have hnn : isNull data = false := by
    cases data with
    | null => simp [deltaOf, getField] at hd
    | bool b => rfl
    | num m e => rfl
    | str st => rfl
    | arr l => rfl
    | obj fs => rfl
  refine ⟨textEventsOfDelta dv ++ (toolEventsOfDelta dv).1, ?_, ?_⟩
  · simp only [chunkEvents, if_neg hdone, hp, Bool.false_eq_true, if_false,
      List.nil_append]
    simp only [translateData, hnn, Bool.false_eq_true, if_false, hd, hdt, if_true,
      hnothrow]
    congr 1
    simp [finishEventsOf, hf, hft]
  · rw [List.filter_append, textEvents_no_finish, toolEvents_no_finish]
    rfl

theorem stream_no_delta_no_finish_aux (ws : List Warning) (s : String) (data : JsonVal)
    (hp : parseJson s = some data)
    (hdf : optTruthy (deltaOf data) = false) :
    (chunkEvents false ws s).filter isFinishEvt = [] := by
  have hdone : s ≠ "[DONE]" := by
    intro he
    rw [he] at hp
    have hnone : parseJson "[DONE]" = none := rfl
    rw [hnone] at hp
    cases hp
  simp only [chunkEvents, if_neg hdone, hp, Bool.false_eq_true, if_false,
    List.nil_append]
  by_cases hnull : isNull data = true
  · simp [translateData, hnull, isFinishEvt]
  · rw [Bool.not_eq_true] at hnull
    cases hd : deltaOf data with
    | none => simp [translateData, hnull, hd]
    | some dv =>
      have hdt : jsTruthy dv = false := by
        rw [hd] at hdf
        simpa [optTruthy] using hdf
      simp [translateData, hnull, hd, hdt]

/-- C5 (amended): for every raw chunk that parses as JSON and whose first
choice carries both a truthy `delta` and a truthy finish-reason, and whose
tool-call translation raises no type error, the stream mapper yields
exactly one `finish` event, as the chunk's last event, with the mapped
reason, carrying usage iff the chunk's `usage` field is truthy (in
practice a usage object); every chunk whose first choice lacks a (truthy)
`delta` yields no finish event at all, because the transform returns
before reaching the finish-reason handling. -/
theorem stream_finish_event_corrected :
    (∀ (ws : List Warning) (s : String) (data dv fr : JsonVal),
      parseJson s = some data →
      deltaOf data = some dv →
      jsTruthy dv = true →
      finishReasonOf data = some fr →
      jsTruthy fr = true →
      (toolEventsOfDelta dv).2 = false →
      ∃ evs, chunkEvents false ws s =
          evs ++ [StreamPart.finish (mapFinishReasonVal fr) (usageOf data)] ∧
        evs.filter isFinishEvt = []) ∧
    (∀ (ws : List Warning) (s : String) (data : JsonVal),
      parseJson s = some data →
      optTruthy (deltaOf data) = false →
      (chunkEvents false ws s).filter isFinishEvt = []) :=
  ⟨stream_finish_last_aux, stream_no_delta_no_finish_aux⟩

theorem stream_finish_event_corrected_witness :
    (∃ evs, chunkEvents false [] chunk2Raw =
        evs ++ [StreamPart.finish "stop"
          (some { inputTokens := some (JsonVal.num 3 0),
                  outputTokens := some (JsonVal.num 1 0),
                  totalTokens := some (JsonVal.num 4 0) })] ∧
      evs.filter isFinishEvt = []) ∧
    (chunkEvents false [] noDeltaChunk).filter isFinishEvt = [] :=
  ⟨stream_finish_event_corrected.1 [] chunk2Raw
    (JsonVal.obj
      [("choices", JsonVal.arr
         [JsonVal.obj [("delta", JsonVal.obj []), ("finish_reason", JsonVal.str "stop")]]),
       ("usage", JsonVal.obj
         [("prompt_tokens", JsonVal.num 3 0), ("completion_tokens", JsonVal.num 1 0),
          ("total_tokens", JsonVal.num 4 0)])])
    (JsonVal.obj []) (JsonVal.str "stop") rfl rfl rfl rfl rfl rfl,
   stream_finish_event_corrected.2 [] noDeltaChunk
    (JsonVal.obj
      [("choices", JsonVal.arr [JsonVal.obj [("finish_reason", JsonVal.str "stop")]])])
    rfl rfl⟩

/-- Counterexample to C5 as stated: the chunk
`{"choices":[{"finish_reason":"stop"}]}` parses as JSON and carries a
present (truthy) finish-reason, yet the stream mapper emits NO event at
all — the transform returns early because the chunk has no `delta`. -/
theorem finish_reason_without_delta_no_event :
    parseJson noDeltaChunk =
      some (JsonVal.obj
        [("choices", JsonVal.arr [JsonVal.obj [("finish_reason", JsonVal.str "stop")]])]) ∧
    finishReasonOf
        (JsonVal.obj
          [("choices", JsonVal.arr [JsonVal.obj [("finish_reason", JsonVal.str "stop")]])]) =
      some (JsonVal.str "stop") ∧
    jsTruthy (JsonVal.str "stop") = true ∧
    chunkEvents false [] noDeltaChunk = [] :=
  ⟨rfl, rfl, rfl, rfl⟩

theorem finalTextOf_ne_empty (events : List AgentEvent) : finalTextOf events ≠ "" := by
  unfold finalTextOf
  have hlit : ("No response from agent" : String) ≠ "" := by decide
  by_cases hj : String.join ((events.filter isTextEvt).map textContentOf) = ""
  · cases hfind : events.find? isResultEvt with
    | none => simp [hj, hlit]
    | some e =>
      by_cases hr : resultTextOf e = "" <;> simp [hr, hj, hlit]
  · cases hfind : events.find? isResultEvt with
    | none => simp [hj]
    | some e =>
      by_cases hr : resultTextOf e = "" <;> simp [hr, hj]

theorem finalTextOf_fallback (events : List AgentEvent)
    (h : ∀ e ∈ events, isTextEvt e = false ∧ isResultEvt e = false) :
    finalTextOf events = "No response from agent" := by
  have hfind : events.find? isResultEvt = none :=
    List.find?_eq_none.mpr (fun e he => by simp [(h e he).2])
  have hfilter : events.filter isTextEvt = [] :=
    List.filter_eq_nil_iff.mpr (fun e he => by simp [(h e he).1])
  simp [finalTextOf, hfind, hfilter, String.join]

/-- C10: the agent adapter's `doGenerate` always reports finish reason
`"stop"`, returns exactly one `text` content part (never tool calls)
whose text is never empty — degrading to the literal
`"No response from agent"` when the agent execution yields no text or
result events — and reports usage with
`totalTokens = inputTokens + outputTokens`. -/
theorem agent_doGenerate_shape (s : AgentSettings) (mid : String)
    (prompt : List NMessage) (events : List AgentEvent) :
    (agentDoGenerate s mid prompt events).finishReason = "stop" ∧
    (agentDoGenerate s mid prompt events).content =
      [LMContent.text (finalTextOf events)] ∧
    finalTextOf events ≠ "" ∧
    (agentDoGenerate s mid prompt events).usage.totalTokens =
      (agentDoGenerate s mid prompt events).usage.inputTokens +
        (agentDoGenerate s mid prompt events).usage.outputTokens ∧
    ((∀ e ∈ events, isTextEvt e = false ∧ isResultEvt e = false) →
      (agentDoGenerate s mid prompt events).content =
        [LMContent.text "No response from agent"]) :=
  ⟨rfl, rfl, finalTextOf_ne_empty events, rfl,
   fun h => by
     rw [show (agentDoGenerate s mid prompt events).content =
           [LMContent.text (finalTextOf events)] from rfl,
         finalTextOf_fallback events h]⟩

theorem agent_doGenerate_shape_witness :
    (agentDoGenerate {} "amp-chat" [] []).content =
      [LMContent.text "No response from agent"] ∧
    (agentDoGenerate {} "amp-chat" [] []).finishReason = "stop" :=
  ⟨(agent_doGenerate_shape {} "amp-chat" [] []).2.2.2.2
     (fun e he => absurd he (List.not_mem_nil e)),
   (agent_doGenerate_shape {} "amp-chat" [] []).1⟩
